import Mathlib

/-!
Verification development for `arris_stats.py`, the single-file acquisition
pipeline that polls an Arris SB8200 cable modem status page and forwards
channel statistics to InfluxDB.

Strings from the Python source are embedded as `List Char`.  The helper
functions below model the Python string builtins the source relies on
(`str.strip`, `str.isdigit`, `str.replace` with and without a count,
substring membership via `in`, `int(...)` and `float(...)` conversion).
-/

deriving instance DecidableEq for Except

/-- Python `str.strip()`: remove leading and trailing whitespace. -/
def pyStrip (s : List Char) : List Char :=
  ((s.dropWhile Char.isWhitespace).reverse.dropWhile Char.isWhitespace).reverse

/-- Python `str.isdigit()` (restricted to ASCII digits, the only characters
occurring in the modem page's channel-id cells): true iff the string is
nonempty and all characters are digits. -/
def pyIsdigit (s : List Char) : Bool :=
  !s.isEmpty && s.all Char.isDigit

/-- Scanning core of Python `str.replace(p, r, count)`.  The first `Nat` is
fuel (an upper bound on the characters still to scan, supplied as the length
of the original string); the second is the remaining replacement count.
At each position, if the pattern `p` is a (nonempty) prefix and replacements
remain, emit `r` and skip over the matched occurrence; otherwise copy one
character.  This is exactly CPython's left-to-right, non-overlapping scan. -/
def replaceAux (p r : List Char) : Nat → Nat → List Char → List Char
  | 0, _, s => s
  | Nat.succ _, _, [] => []
  | Nat.succ f, count, c :: rest =>
    if count ≠ 0 ∧ p ≠ [] ∧ List.isPrefixOf p (c :: rest) then
      r ++ replaceAux p r f (count - 1) (List.drop p.length (c :: rest))
    else
      c :: replaceAux p r f count rest

/-- Python `s.replace(p, r, count)` for a nonempty pattern `p`. -/
def pyReplaceCount (s p r : List Char) (count : Nat) : List Char :=
  replaceAux p r s.length count s

/-- Python `s.replace(p, r)` (no count limit) for a nonempty pattern `p`:
at most `s.length` replacements can ever occur, so that bound is exact. -/
def pyReplace (s p r : List Char) : List Char :=
  replaceAux p r s.length s.length s

/-- Split a string around the first occurrence of `p`: returns
`some (before, after)` where `before ++ p ++ after` is the input and
`before` contains no earlier occurrence, or `none` if `p` does not occur. -/
def splitFirst (p : List Char) : List Char → Option (List Char × List Char)
  | [] => if List.isPrefixOf p ([] : List Char) then some ([], []) else none
  | c :: rest =>
    if List.isPrefixOf p (c :: rest) then
      some ([], List.drop p.length (c :: rest))
    else
      match splitFirst p rest with
      | none => none
      | some (a, t) => some (c :: a, t)

/-- Python substring membership `p in s`. -/
def containsSub (p s : List Char) : Bool :=
  (splitFirst p s).isSome

/-- Reference form of bounded replacement, written the way the spec
describes it: replace the first occurrence (leaving the text before it
verbatim), then recurse on the text after it with one fewer replacement
allowed; text with no occurrence is returned unchanged. -/
def replaceSpec (p r : List Char) : Nat → List Char → List Char
  | 0, s => s
  | Nat.succ k, s =>
    match splitFirst p s with
    | none => s
    | some (a, t) => a ++ r ++ replaceSpec p r k t

/-- Numeric value of a list of ASCII digit characters. -/
def digitsVal (l : List Char) : Nat :=
  l.foldl (fun a c => a * 10 + (c.toNat - 48)) 0

/-- Python `int(s)` on a string: strip whitespace, optional sign, then a
nonempty run of digits; anything else raises `ValueError`, modelled as
`none`.  (Underscore digit separators and non-ASCII digits are omitted:
they never occur in the modem page fields.) -/
def pyInt (s : List Char) : Option Int :=
  let t := pyStrip s
  let su : Int × List Char :=
    match t with
    | '+' :: rest => (1, rest)
    | '-' :: rest => (-1, rest)
    | _ => (1, t)
  if su.2 ≠ [] ∧ su.2.all Char.isDigit then
    some (su.1 * (digitsVal su.2 : Int))
  else
    none

/-- Exact decimal value `num / 10 ^ exp`, the representation used for
fields the Python source passes through `float(...)`.  Kept unnormalized so
that every computation is structural. -/
structure Dec where
  num : Int
  exp : Nat
deriving DecidableEq, Repr

/-- Python `float(s)` on a string, restricted to the plain decimal forms
that occur in the modem page fields (optional sign, digits, optional
fractional part; exponent and inf/nan spellings omitted).  The value is
carried exactly as a scaled integer. -/
def pyFloat (s : List Char) : Option Dec :=
  let t := pyStrip s
  let su : Int × List Char :=
    match t with
    | '+' :: rest => (1, rest)
    | '-' :: rest => (-1, rest)
    | _ => (1, t)
  let ip := su.2.takeWhile Char.isDigit
  let rest := su.2.dropWhile Char.isDigit
  match rest with
  | [] =>
    if ip ≠ [] then some ⟨su.1 * (digitsVal ip : Int), 0⟩ else none
  | '.' :: fp =>
    if fp.all Char.isDigit ∧ (ip ≠ [] ∨ fp ≠ []) then
      some ⟨su.1 * ((digitsVal ip : Int) * (10 : Int) ^ fp.length + (digitsVal fp : Int)), fp.length⟩
    else
      none
  | _ => none

/-!
## Channel table parser (`parse_html_sb8200`)

BeautifulSoup is an external library: the structured view it produces is
taken as the parser's input.  A page is a list of tables, each table the
list of its `tr` rows; a row records whether it contains a `th` cell
(`table_row.th` truthiness) and the text of each of its `td` cells in
order.  The Python body raises `IndexError` on out-of-range table or cell
indexing and `NameError` when `channel_id` is read before its first
assignment; both are modelled as `Except` errors, since nothing in the
program catches them.
-/

/-- One `tr` row as seen through BeautifulSoup. -/
structure HtmlRow where
  hasTh : Bool
  tds : List (List Char)
deriving DecidableEq, Repr

/-- Exceptions the parser body can raise. -/
inductive PyError
  | indexError
  | nameError
deriving DecidableEq, Repr

/-- One entry of `stats['downstream']`. -/
structure DownRecord where
  channel_id : List Char
  modulation : List Char
  frequency : List Char
  power : List Char
  snr : List Char
  corrected : List Char
  uncorrectables : List Char
deriving DecidableEq, Repr

/-- One entry of `stats['upstream']`. -/
structure UpRecord where
  channel_id : List Char
  channel_type : List Char
  frequency : List Char
  power : List Char
deriving DecidableEq, Repr

/-- The stats dict returned by `parse_html_sb8200`. -/
structure Stats where
  downstream : List DownRecord
  upstream : List UpRecord
deriving DecidableEq, Repr

/-- Downstream cleanup: `.text.replace("Other", "OFDM PLC").strip()`. -/
def cleanModulation (t : List Char) : List Char :=
  pyStrip (pyReplace t "Other".toList "OFDM PLC".toList)

/-- Upstream cleanup:
`.text.replace(" Upstream", "").replace("OFDM", "OFDMA").strip()`. -/
def cleanChannelType (t : List Char) : List Char :=
  pyStrip (pyReplace (pyReplace t " Upstream".toList []) "OFDM".toList "OFDMA".toList)

/-- Unit-suffix cleanup: `.text.replace(unit, "").strip()`. -/
def cleanUnit (unit t : List Char) : List Char :=
  pyStrip (pyReplace t unit [])

/-- The downstream-table loop (source lines 289–314).  The second argument
is the current value of the local variable `channel_id` (`none` while still
unassigned); the loop threads it because the upstream loop reads it.
Returns the collected records together with the final `channel_id`. -/
def downLoop : List HtmlRow → Option (List Char) →
    Except PyError (List DownRecord × Option (List Char))
  | [], cid => Except.ok ([], cid)
  | row :: rest, cid =>
    if row.hasTh then
      downLoop rest cid
    else
      match row.tds.get? 0 with
      | none => Except.error PyError.indexError
      | some t0 =>
        let c := pyStrip t0
        if pyIsdigit c = false then
          downLoop rest (some c)
        else
          match row.tds.get? 2, row.tds.get? 3, row.tds.get? 4,
                row.tds.get? 5, row.tds.get? 6, row.tds.get? 7 with
          | some t2, some t3, some t4, some t5, some t6, some t7 =>
            match downLoop rest (some c) with
            | Except.error e => Except.error e
            | Except.ok (recs, cid') =>
              Except.ok
                ({ channel_id := c
                   modulation := cleanModulation t2
                   frequency := cleanUnit " Hz".toList t3
                   power := cleanUnit " dBmV".toList t4
                   snr := cleanUnit " dB".toList t5
                   corrected := pyStrip t6
                   uncorrectables := pyStrip t7 } :: recs, cid')
          | _, _, _, _, _, _ => Except.error PyError.indexError

/-- The upstream-table loop (source lines 322–340).  Note the digit check
at line 327 reads `channel_id` *before* line 330 assigns it for the current
row, so each row's inclusion is governed by the previous row's stripped
channel-id text (or, for the first upstream row, the value left over from
the downstream loop; `none` there raises `NameError`). -/
def upLoop : List HtmlRow → Option (List Char) →
    Except PyError (List UpRecord × Option (List Char))
  | [], cid => Except.ok ([], cid)
  | row :: rest, cid =>
    if row.hasTh then
      upLoop rest cid
    else
      match cid with
      | none => Except.error PyError.nameError
      | some c =>
        if pyIsdigit c = false then
          upLoop rest (some c)
        else
          match row.tds.get? 1, row.tds.get? 3, row.tds.get? 4, row.tds.get? 6 with
          | some t1, some t3, some t4, some t6 =>
            let c1 := pyStrip t1
            match upLoop rest (some c1) with
            | Except.error e => Except.error e
            | Except.ok (recs, cid') =>
              Except.ok
                ({ channel_id := c1
                   channel_type := cleanChannelType t3
                   frequency := cleanUnit " Hz".toList t4
                   power := cleanUnit " dBmV".toList t6 } :: recs, cid')
          | _, _, _, _ => Except.error PyError.indexError

/-- Body of `parse_html_sb8200` after the soup step: index table 1 for the
downstream loop, then table 2 for the upstream loop (in source evaluation
order), threading the `channel_id` variable between the two loops. -/
def parse_tables (tables : List (List HtmlRow)) : Except PyError Stats :=
  match tables.get? 1 with
  | none => Except.error PyError.indexError
  | some dt =>
    match downLoop dt none with
    | Except.error e => Except.error e
    | Except.ok (down, cid) =>
      match tables.get? 2 with
      | none => Except.error PyError.indexError
      | some ut =>
        match upLoop ut cid with
        | Except.error e => Except.error e
        | Except.ok (up, _) => Except.ok { downstream := down, upstream := up }

/-- The known firmware markup defect pattern repaired before parsing. -/
def bondedPat : List Char := "Bonded Channels</strong></th></tr>".toList

/-- Its replacement (same text with the duplicate `</tr>` removed). -/
def bondedRep : List Char := "Bonded Channels</strong></th>".toList

/-- The markup repair pass (source line 281):
`html.replace('Bonded Channels</strong></th></tr>', 'Bonded Channels</strong></th>', 2)`. -/
def repair_html (html : List Char) : List Char :=
  pyReplaceCount html bondedPat bondedRep 2

/-- `main`'s dispatch condition (source line 78): stats are sent unless both
lists are empty. -/
def shouldDispatch (stats : Stats) : Bool :=
  !(stats.upstream.isEmpty && stats.downstream.isEmpty)

/-!
## HTTP layer (`get_credential`, `get_html`)

The network itself is external: a call to `requests.get` is modelled by its
outcome, `none` when the transport raised (caught by the source's `except`
blocks) and `some` response otherwise.  A response carries the status code,
the body text, and the optional `sessionId` cookie (reading a missing
cookie raises `KeyError`, which the same `except` block catches).  The
request URL, basic-auth header and outgoing cookies only shape what the
modem answers, so they do not appear in the model.
-/

/-- Outcome of a `requests.get` call that did not raise in transport. -/
structure ModemResponse where
  status_code : Nat
  text : List Char
  sessionId : Option (List Char)
deriving DecidableEq, Repr

/-- The credential dict returned by a successful `get_credential`. -/
structure Credential where
  token : List Char
  cookie : Option (List Char)
deriving DecidableEq, Repr

/-- The login-page marker checked by both HTTP functions. -/
def passwordMarker : List Char := "Password:".toList

/-- `get_credential` (source lines 169–223): in new-auth mode a missing
`sessionId` cookie raises inside the `try` and yields `None`; any
non-200 status yields `None`; a body containing the login marker yields
`None`; otherwise the body becomes the token. -/
def get_credential (modem_new_auth : Bool) (resp : Option ModemResponse) :
    Option Credential :=
  match resp with
  | none => none
  | some r =>
    let cookieStep : Option (Option (List Char)) :=
      if modem_new_auth then
        match r.sessionId with
        | none => none
        | some ck => some (some ck)
      else some none
    match cookieStep with
    | none => none
    | some cookie =>
      if r.status_code ≠ 200 then none
      else if containsSub passwordMarker r.text then none
      else some { token := r.text, cookie := cookie }

/-- `get_html` (source lines 226–269): non-200 status, a transport error,
and a body containing the login marker all return `None`; only otherwise is
the body returned.  The configuration flags and credential only alter the
request sent, and the login-marker branch differs from the failure branches
only in what is logged, not in what is returned. -/
def get_html (resp : Option ModemResponse) : Option (List Char) :=
  match resp with
  | none => none
  | some r =>
    if r.status_code ≠ 200 then none
    else if containsSub passwordMarker r.text then none
    else some r.text

/-!
## Metric normalization (`send_to_influx`, lines 364–396)

`send_to_influx` builds the point series with bare `int(...)` and
`float(...)` calls inside its two loops; the surrounding function has no
try/except around them (only the final `write_api.write` call is guarded),
so a single failing conversion raises `ValueError` out of the whole
function.  The series construction is modelled as an `Except`-valued
function; the write call itself is external.
-/

/-- One Influx point as assembled by `Point.from_dict`. -/
structure Point where
  measurement : List Char
  time : List Char
  intFields : List (List Char × Int)
  decFields : List (List Char × Dec)
  intTags : List (List Char × Int)
  strTags : List (List Char × List Char)
deriving DecidableEq, Repr

/-- Conversion of one downstream record into a point (source lines
367–382); any failing `int`/`float` raises, modelled as `Except.error`. -/
def downPoint (t : List Char) (r : DownRecord) : Except Unit Point :=
  match pyInt r.frequency, pyFloat r.power, pyFloat r.snr,
        pyInt r.corrected, pyInt r.uncorrectables, pyInt r.channel_id with
  | some fr, some pw, some sn, some co, some un, some cid =>
    Except.ok
      { measurement := "downstream_statistics".toList
        time := t
        intFields := [("frequency".toList, fr), ("corrected".toList, co),
                      ("uncorrectables".toList, un)]
        decFields := [("power".toList, pw), ("snr".toList, sn)]
        intTags := [("channel_id".toList, cid)]
        strTags := [("modulation".toList, r.modulation)] }
  | _, _, _, _, _, _ => Except.error ()

/-- Conversion of one upstream record into a point (source lines 384–396). -/
def upPoint (t : List Char) (r : UpRecord) : Except Unit Point :=
  match pyInt r.frequency, pyFloat r.power, pyInt r.channel_id with
  | some fr, some pw, some cid =>
    Except.ok
      { measurement := "upstream_statistics".toList
        time := t
        intFields := [("frequency".toList, fr)]
        decFields := [("power".toList, pw)]
        intTags := [("channel_id".toList, cid)]
        strTags := [("channel_type".toList, r.channel_type)] }
  | _, _, _ => Except.error ()

/-- The downstream loop of the series construction. -/
def seriesDown (t : List Char) : List DownRecord → Except Unit (List Point)
  | [] => Except.ok []
  | r :: rest =>
    match downPoint t r with
    | Except.error e => Except.error e
    | Except.ok p =>
      match seriesDown t rest with
      | Except.error e => Except.error e
      | Except.ok ps => Except.ok (p :: ps)

/-- The upstream loop of the series construction. -/
def seriesUp (t : List Char) : List UpRecord → Except Unit (List Point)
  | [] => Except.ok []
  | r :: rest =>
    match upPoint t r with
    | Except.error e => Except.error e
    | Except.ok p =>
      match seriesUp t rest with
      | Except.error e => Except.error e
      | Except.ok ps => Except.ok (p :: ps)

/-- The full series assembled by `send_to_influx` before the write call:
`current_time` is computed once and passed to every point; downstream
points precede upstream points. -/
def build_series (t : List Char) (stats : Stats) : Except Unit (List Point) :=
  match seriesDown t stats.downstream with
  | Except.error e => Except.error e
  | Except.ok ds =>
    match seriesUp t stats.upstream with
    | Except.error e => Except.error e
    | Except.ok us => Except.ok (ds ++ us)

/-!
## Fatal exits (`error_exit` and its call sites in `main`)
-/

/-- The configuration fields `error_exit` consults. -/
structure RunConfig where
  sleep_before_exit : Bool
  sleep_interval : Nat
deriving DecidableEq, Repr

/-- Observable behavior of a fatal exit: whether the process slept one
interval first, and the exit status passed to `sys.exit`. -/
structure ExitBehavior where
  slept : Bool
  code : Nat
deriving DecidableEq, Repr

/-- `error_exit(message, config, sleep)` (source lines 410–416): sleeps
only when the `sleep` argument is true *and* a config was passed *and* its
`sleep_before_exit` flag is set, then calls `sys.exit(1)`. -/
def error_exit (config : Option RunConfig) (sleep : Bool) : ExitBehavior :=
  { slept := sleep && (match config with
      | some c => c.sleep_before_exit
      | none => false)
    code := 1 }

/-- The four fatal-exit call sites in `main`. -/
inductive FatalPath
  | authError
  | htmlError
  | badModel
  | badDestination
deriving DecidableEq, Repr

/-- How each call site invokes `error_exit`: the auth-error (line 56) and
html-error (line 65) paths pass the config and leave `sleep` at its default
`True`; the unsupported-model (line 76) and unsupported-destination
(line 87) paths pass `sleep=False` and omit the config. -/
def mainFatalExit (cfg : RunConfig) : FatalPath → ExitBehavior
  | FatalPath.authError => error_exit (some cfg) true
  | FatalPath.htmlError => error_exit (some cfg) true
  | FatalPath.badModel => error_exit none false
  | FatalPath.badDestination => error_exit none false

/-- Whether an `Except` value is a success. -/
def isOkExcept {ε α : Type} : Except ε α → Bool
  | Except.ok _ => true
  | Except.error _ => false

/-!
## Concrete pages used as failing inputs and witnesses
-/

/-- A well-formed downstream data row (channel id 1). -/
def downRowOk : HtmlRow :=
  { hasTh := false
    tds := ["1".toList, "Locked".toList, "QAM256".toList, "600000000 Hz".toList,
            "1.2 dBmV".toList, "38.1 dB".toList, "10".toList, "0".toList] }

/-- An upstream row whose own channel-id cell (`td[1]`) is the non-integer
text `"abc"`. -/
def upRowBadId : HtmlRow :=
  { hasTh := false
    tds := ["3".toList, "abc".toList, "Locked".toList, "ATDMA Upstream".toList,
            "35600000 Hz".toList, "6400000".toList, "40.5 dBmV".toList] }

/-- A well-formed upstream data row (channel id 1). -/
def upRowOk : HtmlRow :=
  { hasTh := false
    tds := ["3".toList, "1".toList, "Locked".toList, "ATDMA Upstream".toList,
            "35600000 Hz".toList, "6400000".toList, "40.5 dBmV".toList] }

/-- A header row (contains a `th` cell). -/
def headerRow : HtmlRow := { hasTh := true, tds := [] }

/-- A downstream row whose channel-id cell is the non-integer `"abc"`:
skipped by the digit check, but it leaves `channel_id = "abc"` behind. -/
def downRowBadId : HtmlRow := { hasTh := false, tds := ["abc".toList] }

/-- Page for C1: one valid downstream row followed by an upstream row whose
own channel-id cell is not an integer. -/
def c1Tables : List (List HtmlRow) :=
  [[], [headerRow, downRowOk], [headerRow, upRowBadId]]

/-- Page for C2: the downstream table yields zero records (its only data
row has a non-integer channel id) while the upstream table holds one fully
valid row. -/
def c2Tables : List (List HtmlRow) :=
  [[], [headerRow, downRowBadId], [headerRow, upRowOk]]

/-- Page for the C3 witness: both tables present and well formed. -/
def c3Tables : List (List HtmlRow) :=
  [[], [headerRow, downRowOk], [headerRow, upRowOk]]

/-- The capture timestamp string used in concrete normalization runs. -/
def tStamp : List Char := "2023-01-01T00:00:00Z".toList

/-- A fully convertible downstream record (as the parser would emit it). -/
def goodDown : DownRecord :=
  { channel_id := "1".toList, modulation := "QAM256".toList,
    frequency := "600000000".toList, power := "1.2".toList,
    snr := "38.1".toList, corrected := "10".toList, uncorrectables := "0".toList }

/-- A downstream record whose frequency text fails `int(...)`. -/
def badDown : DownRecord :=
  { channel_id := "2".toList, modulation := "QAM256".toList,
    frequency := "abc".toList, power := "1.2".toList,
    snr := "38.1".toList, corrected := "10".toList, uncorrectables := "0".toList }

/-- A fully convertible upstream record. -/
def goodUp : UpRecord :=
  { channel_id := "1".toList, channel_type := "ATDMA".toList,
    frequency := "35600000".toList, power := "40.5".toList }

/-- Snapshot with one good and one bad downstream record. -/
def statsMixed : Stats := { downstream := [goodDown, badDown], upstream := [] }

/-- Snapshot with one good record per direction. -/
def statsOkOne : Stats := { downstream := [goodDown], upstream := [goodUp] }

/-- The point `downPoint` produces from `goodDown` at `tStamp`. -/
def pdGood : Point :=
  { measurement := "downstream_statistics".toList
    time := tStamp
    intFields := [("frequency".toList, 600000000), ("corrected".toList, 10),
                  ("uncorrectables".toList, 0)]
    decFields := [("power".toList, ⟨12, 1⟩), ("snr".toList, ⟨381, 1⟩)]
    intTags := [("channel_id".toList, 1)]
    strTags := [("modulation".toList, "QAM256".toList)] }

/-- The point `upPoint` produces from `goodUp` at `tStamp`. -/
def puGood : Point :=
  { measurement := "upstream_statistics".toList
    time := tStamp
    intFields := [("frequency".toList, 35600000)]
    decFields := [("power".toList, ⟨405, 1⟩)]
    intTags := [("channel_id".toList, 1)]
    strTags := [("channel_type".toList, "ATDMA".toList)] }

/-- A 200 response whose body is the login page. -/
def loginResp : ModemResponse :=
  { status_code := 200, text := "<html>Password: <input></html>".toList, sessionId := none }

/-- A failed response (HTTP 500). -/
def errorResp : ModemResponse :=
  { status_code := 500, text := "Internal Server Error".toList, sessionId := none }

/-- A login-page response carrying a session cookie, for the C8 witness. -/
def loginRespCk : ModemResponse :=
  { status_code := 200, text := "<p>Password: </p>".toList, sessionId := some "s1".toList }

/-- A configuration with the sleep-before-exit policy enabled. -/
def cfgSleep : RunConfig := { sleep_before_exit := true, sleep_interval := 300 }

/-- An upstream row whose channel-type cell reads `"OFDM Upstream"`. -/
def upRowOfdm : HtmlRow :=
  { hasTh := false
    tds := ["3".toList, "1".toList, "Locked".toList, "OFDM Upstream".toList,
            "35600000 Hz".toList, "6400000".toList, "40.5 dBmV".toList] }

/-- The record the upstream loop produces from `upRowOfdm`. -/
def recOfdm : UpRecord :=
  { channel_id := "1".toList, channel_type := "OFDMA".toList,
    frequency := "35600000".toList, power := "40.5".toList }

/-!
## Helper lemmas
-/

/-- With no replacements left, the scan copies the string unchanged. -/
theorem replaceAux_zero (p r : List Char) :
    ∀ (fuel : Nat) (s : List Char), replaceAux p r fuel 0 s = s := by
  intro fuel
  induction fuel with
  | zero => intro s; rfl
  | succ f ih =>
    intro s
    cases s with
    | nil => rfl
    | cons c rest => simp [replaceAux, ih]

/-- A nonempty pattern does not occur in the empty string. -/
theorem splitFirst_nil {p : List Char} (hp : p ≠ []) :
    splitFirst p [] = none := by
  cases p with
  | nil => exact absurd rfl hp
  | cons a as => simp [splitFirst, List.isPrefixOf]

/-- The scanning implementation of bounded replacement agrees with the
first-occurrence decomposition form whenever the fuel covers the string. -/
theorem replaceAux_eq_replaceSpec (p r : List Char) (hp : p ≠ []) :
    ∀ (fuel count : Nat) (s : List Char), s.length ≤ fuel →
      replaceAux p r fuel count s = replaceSpec p r count s := by
  intro fuel
  induction fuel with
  | zero =>
    intro count s hs
    have hnil : s = [] := List.eq_nil_of_length_eq_zero (Nat.le_zero.mp hs)
    subst hnil
    cases count with
    | zero => rfl
    | succ k => simp [replaceAux, replaceSpec, splitFirst_nil hp]
  | succ f ih =>
    intro count s hs
    cases s with
    | nil =>
      cases count with
      | zero => rfl
      | succ k => simp [replaceAux, replaceSpec, splitFirst_nil hp]
    | cons c rest =>
      cases count with
      | zero => rw [replaceAux_zero]; rfl
      | succ k =>
        have hp1 : 1 ≤ p.length := by
          cases p with
          | nil => exact absurd rfl hp
          | cons a as => simp
        by_cases hpre : List.isPrefixOf p (c :: rest) = true
        · have hplen : p.length ≤ (c :: rest).length :=
            (List.isPrefixOf_iff_prefix.mp hpre).length_le
          have hcond : Nat.succ k ≠ 0 ∧ p ≠ [] ∧ List.isPrefixOf p (c :: rest) :=
            ⟨Nat.succ_ne_zero k, hp, hpre⟩
          have hdrop : (List.drop p.length (c :: rest)).length ≤ f := by
            rw [List.length_drop]
            simp only [List.length_cons] at hs ⊢
            omega
          rw [replaceAux, if_pos hcond, ih _ _ hdrop]
          show _ = replaceSpec p r (k + 1) (c :: rest)
          rw [replaceSpec]
          have hsp : splitFirst p (c :: rest) =
              some ([], List.drop p.length (c :: rest)) := by
            rw [splitFirst, if_pos hpre]
          rw [hsp]
          simp
        · have hcond : ¬(Nat.succ k ≠ 0 ∧ p ≠ [] ∧ List.isPrefixOf p (c :: rest)) := by
            intro h
            exact hpre h.2.2
          have hrest : rest.length ≤ f := by
            simp only [List.length_cons] at hs
            omega
          rw [replaceAux, if_neg hcond, ih _ _ hrest]
          show c :: replaceSpec p r (k + 1) rest = replaceSpec p r (k + 1) (c :: rest)
          rw [replaceSpec, replaceSpec]
          cases hsp : splitFirst p rest with
          | none =>
            have : splitFirst p (c :: rest) = none := by
              rw [splitFirst, if_neg hpre, hsp]
            rw [this]
          | some at' =>
            obtain ⟨a, t⟩ := at'
            have : splitFirst p (c :: rest) = some (c :: a, t) := by
              rw [splitFirst, if_neg hpre, hsp]
            rw [this]
            simp

/-- The downstream loop never raises when every non-header row has the
eight cells the body indexes, and it leaves `channel_id` assigned as soon
as the table had any non-header row. -/
theorem downLoop_total :
    ∀ (rows : List HtmlRow) (cid : Option (List Char)),
      (∀ row ∈ rows, row.hasTh = false → 8 ≤ row.tds.length) →
      ∃ recs cid', downLoop rows cid = Except.ok (recs, cid') ∧
        (cid'.isSome = true ∨ (cid' = cid ∧ ∀ row ∈ rows, row.hasTh = true)) := by
  intro rows
  induction rows with
  | nil =>
    intro cid _
    exact ⟨[], cid, rfl, Or.inr ⟨rfl, by intro row h; cases h⟩⟩
  | cons row rest ih =>
    intro cid hcells
    have hrest : ∀ r ∈ rest, r.hasTh = false → 8 ≤ r.tds.length :=
      fun r hr => hcells r (List.mem_cons_of_mem _ hr)
    by_cases hth : row.hasTh = true
    · obtain ⟨recs, cid', heq, hd⟩ := ih cid hrest
      refine ⟨recs, cid', by simp [downLoop, hth, heq], ?_⟩
      cases hd with
      | inl h1 => exact Or.inl h1
      | inr h2 =>
        refine Or.inr ⟨h2.1, ?_⟩
        intro r hr
        cases hr with
        | head => exact hth
        | tail _ hr' => exact h2.2 r hr'
    · have hth' : row.hasTh = false := by
        cases h : row.hasTh
        · rfl
        · exact absurd h hth
      have hlen : 8 ≤ row.tds.length := hcells row (List.mem_cons_self _ _) hth'
      obtain ⟨t0, h0⟩ : ∃ v, row.tds.get? 0 = some v :=
        ⟨_, List.get?_eq_get (by omega)⟩
      by_cases hdig : pyIsdigit (pyStrip t0) = false
      · obtain ⟨recs, cid', heq, hd⟩ := ih (some (pyStrip t0)) hrest
        refine ⟨recs, cid', by simp [downLoop, hth', ← List.get?_eq_getElem?, h0, hdig, heq], ?_⟩
        cases hd with
        | inl h1 => exact Or.inl h1
        | inr h2 => exact Or.inl (by rw [h2.1]; rfl)
      · have hdig' : pyIsdigit (pyStrip t0) = true := by
          cases h : pyIsdigit (pyStrip t0)
          · exact absurd h hdig
          · rfl
        obtain ⟨t2, h2⟩ : ∃ v, row.tds.get? 2 = some v :=
          ⟨_, List.get?_eq_get (by omega)⟩
        obtain ⟨t3, h3⟩ : ∃ v, row.tds.get? 3 = some v :=
          ⟨_, List.get?_eq_get (by omega)⟩
        obtain ⟨t4, h4⟩ : ∃ v, row.tds.get? 4 = some v :=
          ⟨_, List.get?_eq_get (by omega)⟩
        obtain ⟨t5, h5⟩ : ∃ v, row.tds.get? 5 = some v :=
          ⟨_, List.get?_eq_get (by omega)⟩
        obtain ⟨t6, h6⟩ : ∃ v, row.tds.get? 6 = some v :=
          ⟨_, List.get?_eq_get (by omega)⟩
        obtain ⟨t7, h7⟩ : ∃ v, row.tds.get? 7 = some v :=
          ⟨_, List.get?_eq_get (by omega)⟩
        obtain ⟨recs, cid', heq, hd⟩ := ih (some (pyStrip t0)) hrest
        refine ⟨{ channel_id := pyStrip t0
                  modulation := cleanModulation t2
                  frequency := cleanUnit " Hz".toList t3
                  power := cleanUnit " dBmV".toList t4
                  snr := cleanUnit " dB".toList t5
                  corrected := pyStrip t6
                  uncorrectables := pyStrip t7 } :: recs, cid',
                by simp [downLoop, hth', ← List.get?_eq_getElem?, h0, hdig', h2, h3, h4, h5, h6, h7, heq], ?_⟩
        cases hd with
        | inl h1 => exact Or.inl h1
        | inr hh => exact Or.inl (by rw [hh.1]; rfl)

/-- The upstream loop never raises once `channel_id` is assigned, provided
every non-header row has the seven cells the body indexes. -/
theorem upLoop_total :
    ∀ (rows : List HtmlRow) (c : List Char),
      (∀ row ∈ rows, row.hasTh = false → 7 ≤ row.tds.length) →
      ∃ recs cid', upLoop rows (some c) = Except.ok (recs, cid') := by
  intro rows
  induction rows with
  | nil => intro c _; exact ⟨[], some c, rfl⟩
  | cons row rest ih =>
    intro c hcells
    have hrest : ∀ r ∈ rest, r.hasTh = false → 7 ≤ r.tds.length :=
      fun r hr => hcells r (List.mem_cons_of_mem _ hr)
    by_cases hth : row.hasTh = true
    · obtain ⟨recs, cid', heq⟩ := ih c hrest
      exact ⟨recs, cid', by simp [upLoop, hth, heq]⟩
    · have hth' : row.hasTh = false := by
        cases h : row.hasTh
        · rfl
        · exact absurd h hth
      have hlen : 7 ≤ row.tds.length := hcells row (List.mem_cons_self _ _) hth'
      by_cases hdig : pyIsdigit c = false
      · obtain ⟨recs, cid', heq⟩ := ih c hrest
        exact ⟨recs, cid', by simp [upLoop, hth', hdig, heq]⟩
      · have hdig' : pyIsdigit c = true := by
          cases h : pyIsdigit c
          · exact absurd h hdig
          · rfl
        obtain ⟨t1, h1⟩ : ∃ v, row.tds.get? 1 = some v :=
          ⟨_, List.get?_eq_get (by omega)⟩
        obtain ⟨t3, h3⟩ : ∃ v, row.tds.get? 3 = some v :=
          ⟨_, List.get?_eq_get (by omega)⟩
        obtain ⟨t4, h4⟩ : ∃ v, row.tds.get? 4 = some v :=
          ⟨_, List.get?_eq_get (by omega)⟩
        obtain ⟨t6, h6⟩ : ∃ v, row.tds.get? 6 = some v :=
          ⟨_, List.get?_eq_get (by omega)⟩
        obtain ⟨recs, cid', heq⟩ := ih (pyStrip t1) hrest
        exact ⟨{ channel_id := pyStrip t1
                 channel_type := cleanChannelType t3
                 frequency := cleanUnit " Hz".toList t4
                 power := cleanUnit " dBmV".toList t6 } :: recs, cid',
               by simp [upLoop, hth', ← List.get?_eq_getElem?, h1, h3, h4, h6, heq, hdig']⟩

/-- Every record the upstream loop emits takes its `channel_type` from its
source row's cell 3 through `cleanChannelType`. -/
theorem upLoop_channelType :
    ∀ (rows : List HtmlRow) (cid : Option (List Char)) (recs : List UpRecord)
      (cid' : Option (List Char)),
      upLoop rows cid = Except.ok (recs, cid') →
      ∀ rec ∈ recs, ∃ row ∈ rows, row.hasTh = false ∧
        ∃ t3, row.tds.get? 3 = some t3 ∧ rec.channel_type = cleanChannelType t3 := by
  intro rows
  induction rows with
  | nil =>
    intro cid recs cid' h rec hrec
    simp [upLoop] at h
    rw [h.1] at hrec
    cases hrec
  | cons row rest ih =>
    intro cid recs cid' h rec hrec
    rw [upLoop.eq_def] at h
    by_cases hth : row.hasTh = true
    · simp only [if_pos hth] at h
      obtain ⟨row', hrow', hrest⟩ := ih cid recs cid' h rec hrec
      exact ⟨row', List.mem_cons_of_mem _ hrow', hrest⟩
    · have hth' : row.hasTh = false := by
        cases hb : row.hasTh
        · rfl
        · exact absurd hb hth
      simp only [if_neg hth] at h
      cases cid with
      | none => simp at h
      | some c =>
        by_cases hdig : pyIsdigit c = false
        · simp only [if_pos hdig] at h
          obtain ⟨row', hrow', hrest⟩ := ih (some c) recs cid' h rec hrec
          exact ⟨row', List.mem_cons_of_mem _ hrow', hrest⟩
        · simp only [if_neg hdig] at h
          cases hg1 : row.tds.get? 1 with
          | none => simp [← List.get?_eq_getElem?, hg1] at h
          | some t1 =>
            cases hg3 : row.tds.get? 3 with
            | none => simp [← List.get?_eq_getElem?, hg1, hg3] at h
            | some t3 =>
              cases hg4 : row.tds.get? 4 with
              | none => simp [← List.get?_eq_getElem?, hg1, hg3, hg4] at h
              | some t4 =>
                cases hg6 : row.tds.get? 6 with
                | none => simp [← List.get?_eq_getElem?, hg1, hg3, hg4, hg6] at h
                | some t6 =>
                  simp only [← List.get?_eq_getElem?, hg1, hg3, hg4, hg6] at h
                  cases hrc : upLoop rest (some (pyStrip t1)) with
                  | error e => simp [hrc] at h
                  | ok out =>
                    obtain ⟨recs'', cid''⟩ := out
                    simp only [hrc, Except.ok.injEq, Prod.mk.injEq] at h
                    obtain ⟨hrecs, hcid⟩ := h
                    rw [← hrecs] at hrec
                    cases hrec with
                    | head =>
                      exact ⟨row, List.mem_cons_self _ _, hth', t3, hg3, rfl⟩
                    | tail _ hmem =>
                      obtain ⟨row', hrow', hrest⟩ := ih _ _ _ hrc rec hmem
                      exact ⟨row', List.mem_cons_of_mem _ hrow', hrest⟩

/-- Every record the downstream loop emits takes its `modulation` from its
source row's cell 2 through `cleanModulation`. -/
theorem downLoop_modulation :
    ∀ (rows : List HtmlRow) (cid : Option (List Char)) (recs : List DownRecord)
      (cid' : Option (List Char)),
      downLoop rows cid = Except.ok (recs, cid') →
      ∀ rec ∈ recs, ∃ row ∈ rows, row.hasTh = false ∧
        ∃ t2, row.tds.get? 2 = some t2 ∧ rec.modulation = cleanModulation t2 := by
  intro rows
  induction rows with
  | nil =>
    intro cid recs cid' h rec hrec
    simp [downLoop] at h
    rw [h.1] at hrec
    cases hrec
  | cons row rest ih =>
    intro cid recs cid' h rec hrec
    rw [downLoop.eq_def] at h
    by_cases hth : row.hasTh = true
    · simp only [if_pos hth] at h
      obtain ⟨row', hrow', hrest⟩ := ih cid recs cid' h rec hrec
      exact ⟨row', List.mem_cons_of_mem _ hrow', hrest⟩
    · have hth' : row.hasTh = false := by
        cases hb : row.hasTh
        · rfl
        · exact absurd hb hth
      simp only [if_neg hth] at h
      cases hg0 : row.tds.get? 0 with
      | none => simp [← List.get?_eq_getElem?, hg0] at h
      | some t0 =>
        by_cases hdig : pyIsdigit (pyStrip t0) = false
        · simp only [← List.get?_eq_getElem?, hg0, if_pos hdig] at h
          obtain ⟨row', hrow', hrest⟩ := ih _ recs cid' h rec hrec
          exact ⟨row', List.mem_cons_of_mem _ hrow', hrest⟩
        · simp only [← List.get?_eq_getElem?, hg0, if_neg hdig] at h
          cases hg2 : row.tds.get? 2 with
          | none => simp [← List.get?_eq_getElem?, hg2] at h
          | some t2 =>
            cases hg3 : row.tds.get? 3 with
            | none => simp [← List.get?_eq_getElem?, hg2, hg3] at h
            | some t3 =>
              cases hg4 : row.tds.get? 4 with
              | none => simp [← List.get?_eq_getElem?, hg2, hg3, hg4] at h
              | some t4 =>
                cases hg5 : row.tds.get? 5 with
                | none => simp [← List.get?_eq_getElem?, hg2, hg3, hg4, hg5] at h
                | some t5 =>
                  cases hg6 : row.tds.get? 6 with
                  | none => simp [← List.get?_eq_getElem?, hg2, hg3, hg4, hg5, hg6] at h
                  | some t6 =>
                    cases hg7 : row.tds.get? 7 with
                    | none => simp [← List.get?_eq_getElem?, hg2, hg3, hg4, hg5, hg6, hg7] at h
                    | some t7 =>
                      simp only [← List.get?_eq_getElem?, hg2, hg3, hg4, hg5, hg6, hg7] at h
                      cases hrc : downLoop rest (some (pyStrip t0)) with
                      | error e => simp [hrc] at h
                      | ok out =>
                        obtain ⟨recs'', cid''⟩ := out
                        simp only [hrc, Except.ok.injEq, Prod.mk.injEq] at h
                        obtain ⟨hrecs, hcid⟩ := h
                        rw [← hrecs] at hrec
                        cases hrec with
                        | head =>
                          exact ⟨row, List.mem_cons_self _ _, hth', t2, hg2, rfl⟩
                        | tail _ hmem =>
                          obtain ⟨row', hrow', hrest⟩ := ih _ _ _ hrc rec hmem
                          exact ⟨row', List.mem_cons_of_mem _ hrow', hrest⟩

/-- A successfully built downstream point carries the timestamp it was
built with. -/
theorem downPoint_time (t : List Char) (r : DownRecord) (p : Point)
    (h : downPoint t r = Except.ok p) : p.time = t := by
  unfold downPoint at h
  split at h
  · cases h
    rfl
  · cases h

/-- A successfully built upstream point carries the timestamp it was
built with. -/
theorem upPoint_time (t : List Char) (r : UpRecord) (p : Point)
    (h : upPoint t r = Except.ok p) : p.time = t := by
  unfold upPoint at h
  split at h
  · cases h
    rfl
  · cases h

/-- Every point of a successful downstream series carries the loop's
timestamp. -/
theorem seriesDown_time (t : List Char) :
    ∀ (recs : List DownRecord) (ps : List Point),
      seriesDown t recs = Except.ok ps → ∀ p ∈ ps, p.time = t := by
  intro recs
  induction recs with
  | nil =>
    intro ps h p hp
    simp [seriesDown] at h
    rw [h] at hp
    cases hp
  | cons r rest ih =>
    intro ps h p hp
    rw [seriesDown.eq_def] at h
    cases hdp : downPoint t r with
    | error e => simp [hdp] at h
    | ok p0 =>
      simp only [hdp] at h
      cases hrc : seriesDown t rest with
      | error e => simp [hrc] at h
      | ok ps' =>
        simp only [hrc, Except.ok.injEq] at h
        rw [← h] at hp
        cases hp with
        | head => exact downPoint_time t r p hdp
        | tail _ hmem => exact ih ps' hrc p hmem

/-- Every point of a successful upstream series carries the loop's
timestamp. -/
theorem seriesUp_time (t : List Char) :
    ∀ (recs : List UpRecord) (ps : List Point),
      seriesUp t recs = Except.ok ps → ∀ p ∈ ps, p.time = t := by
  intro recs
  induction recs with
  | nil =>
    intro ps h p hp
    simp [seriesUp] at h
    rw [h] at hp
    cases hp
  | cons r rest ih =>
    intro ps h p hp
    rw [seriesUp.eq_def] at h
    cases hdp : upPoint t r with
    | error e => simp [hdp] at h
    | ok p0 =>
      simp only [hdp] at h
      cases hrc : seriesUp t rest with
      | error e => simp [hrc] at h
      | ok ps' =>
        simp only [hrc, Except.ok.injEq] at h
        rw [← h] at hp
        cases hp with
        | head => exact upPoint_time t r p hdp
        | tail _ hmem => exact ih ps' hrc p hmem

/-- One failing downstream conversion makes the whole downstream loop
raise. -/
theorem seriesDown_error (t : List Char) :
    ∀ (recs : List DownRecord), (∃ r ∈ recs, downPoint t r = Except.error ()) →
      seriesDown t recs = Except.error () := by
  intro recs
  induction recs with
  | nil =>
    intro h
    obtain ⟨r, hr, _⟩ := h
    cases hr
  | cons r rest ih =>
    intro h
    rw [seriesDown.eq_def]
    cases hdp : downPoint t r with
    | error e => cases e; simp [hdp]
    | ok p0 =>
      obtain ⟨r', hr', herr⟩ := h
      cases hr' with
      | head => rw [hdp] at herr; cases herr
      | tail _ hmem => simp only [hdp, ih ⟨r', hmem, herr⟩]

/-- One failing upstream conversion makes the whole upstream loop raise. -/
theorem seriesUp_error (t : List Char) :
    ∀ (recs : List UpRecord), (∃ r ∈ recs, upPoint t r = Except.error ()) →
      seriesUp t recs = Except.error () := by
  intro recs
  induction recs with
  | nil =>
    intro h
    obtain ⟨r, hr, _⟩ := h
    cases hr
  | cons r rest ih =>
    intro h
    rw [seriesUp.eq_def]
    cases hdp : upPoint t r with
    | error e => cases e; simp [hdp]
    | ok p0 =>
      obtain ⟨r', hr', herr⟩ := h
      cases hr' with
      | head => rw [hdp] at herr; cases herr
      | tail _ hmem => simp only [hdp, ih ⟨r', hmem, herr⟩]

/-!
## Claim theorems
-/

/-- C1 (code bug): the claim states that an upstream data row is included
iff its own channel-id cell (`td[1]`) is a non-negative integer string.
The code's digit check reads `channel_id` before reassigning it, so the
check is governed by the previous row (here the last downstream row, id
`"1"`): on `c1Tables` the upstream row whose own channel-id cell is
`"abc"` is nevertheless included, with `channel_id = "abc"`, violating the
claim and the in-code comment "skip it if channel_id isn't an integer". -/
theorem c1_upstream_stale_digit_check :
    upRowBadId.tds.get? 1 = some "abc".toList ∧
    pyIsdigit (pyStrip "abc".toList) = false ∧
    parse_tables c1Tables =
      Except.ok
        { downstream := [{ channel_id := "1".toList, modulation := "QAM256".toList,
                           frequency := "600000000".toList, power := "1.2".toList,
                           snr := "38.1".toList, corrected := "10".toList,
                           uncorrectables := "0".toList }]
          upstream := [{ channel_id := "abc".toList, channel_type := "ATDMA".toList,
                         frequency := "35600000".toList, power := "40.5".toList }] } := by
  decide

/-- C2 (code bug): the claim states that a page whose downstream table
contributes zero rows while the upstream table holds a valid row parses to
an empty downstream list and a non-empty upstream list, which `main` then
dispatches.  On `c2Tables` the downstream table's only data row leaves the
non-digit text `"abc"` in `channel_id`; the upstream loop's stale digit
check then skips every upstream row — including the fully valid row whose
own id cell is `"1"` — so both lists are empty and `main`'s dispatch
condition (line 78) skips the cycle. -/
theorem c2_empty_downstream_starves_upstream :
    upRowOk.tds.get? 1 = some "1".toList ∧
    pyIsdigit (pyStrip "1".toList) = true ∧
    parse_tables c2Tables = Except.ok { downstream := [], upstream := [] } ∧
    shouldDispatch { downstream := [], upstream := [] } = false := by
  decide

/-- C3 (counterexample): the claim says `parse_html_sb8200` never throws,
even when a table is absent.  On a page with no tables the body raises
`IndexError` at `soup.find_all("table")[1]` instead of returning a
snapshot. -/
theorem c3_counterexample_missing_tables_raise :
    isOkExcept (parse_tables []) = false ∧
    parse_tables [] = Except.error PyError.indexError := by
  decide

/-- C3 (amended): `parse_html_sb8200` returns a snapshot without raising
for every page that yields at least three tables whose non-header rows
carry the cells the body indexes (eight downstream, seven upstream) and
whose downstream table has at least one non-header row (so `channel_id` is
assigned before the upstream loop reads it); pages missing a table, a
cell, or that first assignment raise instead. -/
theorem c3_amended_parse_ok_on_wellformed_pages
    (tables : List (List HtmlRow)) (dt ut : List HtmlRow)
    (h1 : tables.get? 1 = some dt) (h2 : tables.get? 2 = some ut)
    (hdt : ∀ row ∈ dt, row.hasTh = false → 8 ≤ row.tds.length)
    (hut : ∀ row ∈ ut, row.hasTh = false → 7 ≤ row.tds.length)
    (hne : ∃ row ∈ dt, row.hasTh = false) :
    ∃ stats, parse_tables tables = Except.ok stats := by
  obtain ⟨recs, cid', heqd, hd⟩ := downLoop_total dt none hdt
  have hsome : ∃ c, cid' = some c := by
    cases hd with
    | inl h =>
      cases cid' with
      | none => cases h
      | some c => exact ⟨c, rfl⟩
    | inr h =>
      obtain ⟨row, hrow, hth⟩ := hne
      have := h.2 row hrow
      rw [hth] at this
      cases this
  obtain ⟨c, hc⟩ := hsome
  obtain ⟨recsu, cidu, hequ⟩ := upLoop_total ut c hut
  rw [hc] at heqd
  refine ⟨{ downstream := recs, upstream := recsu }, ?_⟩
  simp [parse_tables, ← List.get?_eq_getElem?, h1, h2, heqd, hequ]

/-- C3 (witness): the amended theorem applied to a concrete well-formed
three-table page. -/
theorem c3_amended_witness : isOkExcept (parse_tables c3Tables) = true := by
  obtain ⟨stats, hs⟩ :=
    c3_amended_parse_ok_on_wellformed_pages c3Tables [headerRow, downRowOk]
      [headerRow, upRowOk] (by decide) (by decide) (by decide) (by decide) (by decide)
  rw [hs]
  rfl

/-- C4 (counterexample): the claim says a record failing numeric
conversion is dropped individually while the other records of the snapshot
are still dispatched.  In `statsMixed` the first record converts cleanly
on its own, but the second's frequency `"abc"` makes the whole series
construction raise: no record of the snapshot is dispatched. -/
theorem c4_counterexample_conversion_failure_aborts_batch :
    isOkExcept (downPoint tStamp goodDown) = true ∧
    badDown ∈ statsMixed.downstream ∧
    build_series tStamp statsMixed = Except.error () := by
  decide

/-- C4 (amended): a field that fails its `int`/`float` conversion aborts
the entire dispatch: the exception escapes the conversion loops of
`send_to_influx` (which guards only the final write call), so the whole
snapshot is lost rather than the single record. -/
theorem c4_amended_conversion_failure_drops_whole_batch :
    ∀ (t : List Char) (stats : Stats),
      ((∃ r ∈ stats.downstream, downPoint t r = Except.error ()) ∨
       (∃ r ∈ stats.upstream, upPoint t r = Except.error ())) →
      build_series t stats = Except.error () := by
  intro t stats h
  unfold build_series
  cases h with
  | inl hd => simp [seriesDown_error t stats.downstream hd]
  | inr hu =>
    cases hsd : seriesDown t stats.downstream with
    | error e => cases e; simp
    | ok ds => simp [hsd, seriesUp_error t stats.upstream hu]

/-- C4 (witness): the amended theorem applied to the mixed snapshot. -/
theorem c4_amended_witness : build_series tStamp statsMixed = Except.error () :=
  c4_amended_conversion_failure_drops_whole_batch tStamp statsMixed
    (Or.inl ⟨badDown, by decide, by decide⟩)

/-- C5 (counterexample): the claim says a 200-response carrying the login
marker is reported as an outcome distinct from a transport/status failure.
`get_html` returns the same `None` for the login page and for an HTTP 500,
so the orchestrator cannot tell the two apart from the outcome. -/
theorem c5_counterexample_login_and_failure_indistinguishable :
    containsSub passwordMarker loginResp.text = true ∧
    errorResp.status_code ≠ 200 ∧
    get_html (some loginResp) = get_html (some errorResp) ∧
    get_html (some loginResp) = none := by
  decide

/-- C5 (amended): a fetched body containing the login marker is never
returned as valid data — `get_html` yields the same no-data outcome it
yields for a non-200 status or a transport error, the cases differing only
in what is logged. -/
theorem c5_amended_login_page_yields_no_data :
    (∀ r : ModemResponse, containsSub passwordMarker r.text = true →
      get_html (some r) = none) ∧
    (∀ r : ModemResponse, r.status_code ≠ 200 → get_html (some r) = none) ∧
    get_html none = none := by
  refine ⟨?_, ?_, rfl⟩
  · intro r h
    by_cases hsc : r.status_code = 200
    · simp [get_html, h, hsc]
    · simp [get_html, hsc]
  · intro r h
    simp [get_html, h]

/-- C5 (witness): the amended theorem applied to the concrete login-page
and failed responses. -/
theorem c5_amended_witness :
    containsSub passwordMarker loginResp.text = true ∧
    get_html (some loginResp) = none ∧
    errorResp.status_code ≠ 200 ∧
    get_html (some errorResp) = none :=
  ⟨by decide, c5_amended_login_page_yields_no_data.1 loginResp (by decide),
   by decide, c5_amended_login_page_yields_no_data.2.1 errorResp (by decide)⟩

/-- C6 (counterexample): the claim says every fatal exit honors the
sleep-before-exit policy.  The unsupported-model and
unsupported-destination call sites pass `sleep=False` (and no config), so
with `sleep_before_exit` set the process still exits without sleeping. -/
theorem c6_counterexample_bad_model_exit_skips_sleep :
    cfgSleep.sleep_before_exit = true ∧
    (mainFatalExit cfgSleep FatalPath.badModel).slept = false ∧
    (mainFatalExit cfgSleep FatalPath.badDestination).slept = false ∧
    (mainFatalExit cfgSleep FatalPath.badModel).code = 1 := by
  decide

/-- C6 (amended): every fatal termination path exits with status 1; the
auth-error and html-error paths honor `sleep_before_exit`, while the
unsupported-model and unsupported-destination paths never sleep. -/
theorem c6_amended_exit_codes_and_sleep_policy :
    ∀ (cfg : RunConfig) (p : FatalPath),
      (mainFatalExit cfg p).code = 1 ∧
      (mainFatalExit cfg p).slept =
        (match p with
         | FatalPath.authError => cfg.sleep_before_exit
         | FatalPath.htmlError => cfg.sleep_before_exit
         | FatalPath.badModel => false
         | FatalPath.badDestination => false) := by
  intro cfg p
  cases p <;> simp [mainFatalExit, error_exit]

/-- C7 (counterexample): the claim says the markup repair pass is
idempotent.  On the page `bondedPat ++ "</tr>"` one application yields
`bondedPat` (the replacement re-forms the defect pattern with the trailing
`</tr>`), and a second application changes the text again. -/
theorem c7_counterexample_not_idempotent :
    repair_html (repair_html (bondedPat ++ "</tr>".toList)) ≠
      repair_html (bondedPat ++ "</tr>".toList) := by
  decide

/-- C7 (amended): the repair pass replaces at most the first two
occurrences of the defect pattern, leaving all text before, between and
after them byte-for-byte unchanged (it equals the two-step
first-occurrence decomposition `replaceSpec`); it is not idempotent in
general, since a replacement can re-form the pattern (or a third
occurrence can survive to be replaced on the next application). -/
theorem c7_amended_bounded_replacement :
    (∀ html, repair_html html = replaceSpec bondedPat bondedRep 2 html) ∧
    repair_html (repair_html (bondedPat ++ "</tr>".toList)) ≠
      repair_html (bondedPat ++ "</tr>".toList) := by
  constructor
  · intro html
    unfold repair_html pyReplaceCount
    exact replaceAux_eq_replaceSpec bondedPat bondedRep (by decide) html.length 2 html le_rfl
  · decide

/-- C8 (confirmed): `get_credential` yields no credential whenever the
transport call errors, the HTTP status is not 200, or the response body
contains the `"Password:"` login marker — in either authentication mode a
login-page body never becomes a token. -/
theorem c8_auth_failure_conditions :
    (∀ na : Bool, get_credential na none = none) ∧
    (∀ (na : Bool) (r : ModemResponse), r.status_code ≠ 200 →
      get_credential na (some r) = none) ∧
    (∀ (na : Bool) (r : ModemResponse), containsSub passwordMarker r.text = true →
      get_credential na (some r) = none) := by
  refine ⟨fun na => rfl, ?_, ?_⟩
  · intro na r h
    cases na
    · simp [get_credential, h]
    · cases hs : r.sessionId
      · simp [get_credential, hs]
      · simp [get_credential, hs, h]
  · intro na r h
    by_cases hsc : r.status_code = 200
    · cases na
      · simp [get_credential, h, hsc]
      · cases hs : r.sessionId
        · simp [get_credential, hs]
        · simp [get_credential, hs, h, hsc]
    · cases na
      · simp [get_credential, hsc]
      · cases hs : r.sessionId
        · simp [get_credential, hs]
        · simp [get_credential, hs, hsc]

/-- C8 (witness): a 200 login-page response with a session cookie yields
no credential in either mode. -/
theorem c8_witness :
    containsSub passwordMarker loginRespCk.text = true ∧
    get_credential true (some loginRespCk) = none ∧
    get_credential false (some loginRespCk) = none :=
  ⟨by decide,
   c8_auth_failure_conditions.2.2 true loginRespCk (by decide),
   c8_auth_failure_conditions.2.2 false loginRespCk (by decide)⟩

/-- C9 (confirmed): every point of a successfully built series carries the
single `current_time` computed once per `send_to_influx` call — downstream
and upstream records alike share one capture timestamp. -/
theorem c9_single_timestamp :
    ∀ (t : List Char) (stats : Stats) (series : List Point),
      build_series t stats = Except.ok series → ∀ p ∈ series, p.time = t := by
  intro t stats series h p hp
  unfold build_series at h
  cases hsd : seriesDown t stats.downstream with
  | error e => simp [hsd] at h
  | ok ds =>
    cases hsu : seriesUp t stats.upstream with
    | error e => simp [hsd, hsu] at h
    | ok us =>
      simp only [hsd, hsu, Except.ok.injEq] at h
      rw [← h] at hp
      rcases List.mem_append.mp hp with hm | hm
      · exact seriesDown_time t stats.downstream ds hsd p hm
      · exact seriesUp_time t stats.upstream us hsu p hm

/-- C9 (witness): the theorem applied to a concrete one-record-per-
direction snapshot. -/
theorem c9_witness :
    build_series tStamp statsOkOne = Except.ok [pdGood, puGood] ∧
    pdGood.time = tStamp :=
  ⟨by decide,
   c9_single_timestamp tStamp statsOkOne [pdGood, puGood] (by decide) pdGood (by decide)⟩

/-- C10 (confirmed): the upstream cleanup strips the `" Upstream"` suffix
and remaps `"OFDM"` to `"OFDMA"` (so raw `"OFDM Upstream"` normalizes to
exactly `"OFDMA"`), the downstream cleanup remaps `"Other"` to
`"OFDM PLC"`, and every record either loop emits takes its categorical
field from its source row's cell through exactly that cleanup. -/
theorem c10_categorical_remaps :
    cleanChannelType "OFDM Upstream".toList = "OFDMA".toList ∧
    cleanModulation "Other".toList = "OFDM PLC".toList ∧
    (∀ (rows : List HtmlRow) (cid : Option (List Char)) (recs : List UpRecord)
       (cid' : Option (List Char)),
      upLoop rows cid = Except.ok (recs, cid') →
      ∀ rec ∈ recs, ∃ row ∈ rows, row.hasTh = false ∧
        ∃ t3, row.tds.get? 3 = some t3 ∧ rec.channel_type = cleanChannelType t3) ∧
    (∀ (rows : List HtmlRow) (cid : Option (List Char)) (recs : List DownRecord)
       (cid' : Option (List Char)),
      downLoop rows cid = Except.ok (recs, cid') →
      ∀ rec ∈ recs, ∃ row ∈ rows, row.hasTh = false ∧
        ∃ t2, row.tds.get? 2 = some t2 ∧ rec.modulation = cleanModulation t2) :=
  ⟨by decide, by decide, upLoop_channelType, downLoop_modulation⟩

/-- C10 (witness): the per-row conjunct applied to a concrete upstream row
whose channel-type cell reads `"OFDM Upstream"`. -/
theorem c10_witness : recOfdm.channel_type = cleanChannelType "OFDM Upstream".toList := by
  obtain ⟨row, hrow, hth, t3, hg, hct⟩ :=
    c10_categorical_remaps.2.2.1 [upRowOfdm] (some "1".toList) [recOfdm]
      (some "1".toList) (by decide) recOfdm (by decide)
  have hr := List.mem_singleton.mp hrow
  subst hr
  have hg' : upRowOfdm.tds.get? 3 = some ("OFDM Upstream".toList) := by decide
  rw [hg'] at hg
  injection hg with ht
  rw [← ht] at hct
  exact hct

